import Mathlib

/-!
Verification of the ModalJS repository (src/lib/js/eventable.js,
src/lib/js/modal.js, src/lib/js/logger.js) against its natural-language
specification.

The development shallowly embeds the event bus (`Eventable`), the modal
controller's lifecycle operations (`kill`, `minimize`, `dock`) and the
configuration merge (`settings`) as executable Lean functions, translated
line by line from the JavaScript source, and proves or refutes the spec's
claims about them.

Modelling conventions:
* JavaScript reference identity is modelled by numeric ids (`Nat`);
  callbacks are identified by their id, and each listener wrapper object
  allocated by `addListener` gets a fresh id from the bus.
* jQuery/DOM operations (`bind`, `unbind`, CSS, fades, element trees)
  are external collaborators; they never touch the internal listener
  registry or the controller state fields the claims are about, so they
  are represented by their (absent) effect on the embedded state.
* A thrown JavaScript exception is modelled by an explicit error value
  (`Except` / a dedicated outcome constructor); the JS state mutated
  before the throw is preserved, matching the semantics of `throw`.
-/

namespace EV

/-- The fixed set of event names routed to jQuery native delivery
(`Eventable._jqEvents`, eventable.js lines 255-277). -/
def jqEvents : List String :=
  ["click", "dblclick", "hover", "blur", "change", "focus", "focusin",
   "focusout", "keypress", "keydown", "keyup", "ready", "resize", "load",
   "mousedown", "mouseenter", "mouseleave", "mousemove", "mouseout",
   "mouseover", "mouseup"]

/-- A listener record: the wrapper `Eventable` object allocated by
`addListener` (eventable.js lines 91-95).  `self` is the wrapper's own
object identity, `func_ref` the identity of the stored callback. -/
structure Listener where
  self : Nat
  func_ref : Nat
  event_type : String
deriving DecidableEq, Repr

/-- The event bus state: `event_style`, the `_listeners` map
(event name to ordered listener sequence, insertion order) and a
fresh-id counter modelling object allocation. -/
structure Bus where
  event_style : String
  listeners : List (String × List Listener)
  next_id : Nat
deriving DecidableEq, Repr

/-- A fresh bus as produced by the `Eventable` constructor
(eventable.js lines 43-55): `event_style = 'object'`, empty registry. -/
def newBus : Bus := ⟨"object", [], 0⟩

/-- Property read `this._listeners[type]` on the JS object modelled as
an association list with unique keys (insertion order preserved);
`none` models `undefined`. -/
def findBucket : List (String × List Listener) → String → Option (List Listener)
  | [], _ => none
  | (k, v) :: rest, t => if k = t then some v else findBucket rest t

/-- Assignment `this._listeners[type] = ls` on the JS object modelled as
an association list with unique keys (insertion order preserved). -/
def setBucket : List (String × List Listener) → String → List Listener →
    List (String × List Listener)
  | [], t, ls => [(t, ls)]
  | (k, v) :: rest, t, ls =>
      if k = t then (t, ls) :: rest else (k, v) :: setBucket rest t ls

/-- `addListener(type, func_ref)` for a single string `type`
(eventable.js lines 66-104).  If `type` is in the jQuery native set the
registration is delegated to `$(selector).bind` (external, registry
untouched); otherwise a fresh wrapper carrying `func_ref` is pushed onto
`_listeners[type]`, creating the bucket when absent. -/
def addListener (b : Bus) (t : String) (f : Nat) : Bus :=
  if (if t ∈ jqEvents then "element" else b.event_style) = "element" then b
  else
    { b with
      listeners :=
        setBucket b.listeners t
          (((findBucket b.listeners t).getD []) ++ [⟨b.next_id, f, t⟩]),
      next_id := b.next_id + 1 }

/-- A JavaScript value passed as the `func_ref` argument of
`removeListener`: either a function reference or some other object
(for instance a listener wrapper), compared by identity. -/
inductive JSRef
  | jsFun (id : Nat)
  | jsObj (id : Nat)
deriving DecidableEq, Repr

/-- The strict identity test `listeners[idx] === func_ref`
(eventable.js line 128): the element is the wrapper object, so it is
identical to the argument only when the caller passed that very wrapper;
a function value is never identical to the wrapper. -/
def refEqListener (l : Listener) : JSRef → Bool
  | .jsFun _ => false
  | .jsObj i => l.self == i

/-- The scan-and-splice loop of `removeListener` (eventable.js lines
127-134): remove the first element identical to `r`, keeping order;
`none` when the loop falls through without a match. -/
def spliceFirst : List Listener → JSRef → Option (List Listener)
  | [], _ => none
  | l :: rest, r =>
      if refEqListener l r then some rest
      else (spliceFirst rest r).map (fun tail => l :: tail)

/-- Observable outcome of `removeListener`: returned `this`, returned
the sentinel `false`, or threw a `TypeError`. -/
inductive ROutcome
  | self
  | notFound
  | typeError
deriving DecidableEq, Repr

/-- `removeListener(type, func_ref)` (eventable.js lines 114-137).
The source guard `if (!this._listeners[type] instanceof Array)` parses
as `(!x) instanceof Array`, and a boolean is never an instance of
`Array`, so the guard never returns early; with a missing bucket the
subsequent `listeners.length` read throws a `TypeError` (state
unchanged).  With a bucket present, the loop splices the first element
identical to `func_ref` and returns `this`, else returns `false`. -/
def removeListener (b : Bus) (t : String) (r : JSRef) : Bus × ROutcome :=
  if b.event_style = "element" then (b, .self)
  else
    match findBucket b.listeners t with
    | none => (b, .typeError)
    | some ls =>
      match spliceFirst ls r with
      | some ls2 => ({ b with listeners := setBucket b.listeners t ls2 }, .self)
      | none => (b, .notFound)

/-- `hasListeners(event)` (eventable.js lines 231-237): bucket defined
and non-empty. -/
def hasListeners (b : Bus) (t : String) : Bool :=
  match findBucket b.listeners t with
  | none => false
  | some ls => decide (ls.length > 0)

/-- The ordered callback ids currently stored under `t` (empty when the
bucket is absent). -/
def bucketFuncs (b : Bus) (t : String) : List Nat :=
  ((findBucket b.listeners t).getD []).map Listener.func_ref

/-- A JavaScript value returned by a listener callback.  The dispatch
loop stops exactly on the boolean `false` (strict equality `=== false`,
eventable.js line 215); `undefined`, numbers and strings do not stop it. -/
inductive JSRet
  | jbool (b : Bool)
  | jundefined
  | jnum (n : Int)
  | jstr (s : String)
deriving DecidableEq, Repr

/-- The `target` field of an event record: the bus itself (`this`) or
some other object. -/
inductive ETarget
  | busSelf
  | obj (id : Nat)
deriving DecidableEq, Repr

/-- An event record as manipulated by `trigger` (eventable.js lines
187-201): `type`, `target` and the attached `params` payload.  `none`
models an absent (undefined/null, i.e. falsy) field. -/
structure EventRec where
  type : Option String
  target : Option ETarget
  params : Option JSRet
deriving DecidableEq, Repr

/-- The argument of `trigger`: a bare string event name or a record. -/
inductive EventArg
  | str (s : String)
  | record (e : EventRec)
deriving DecidableEq, Repr

/-- Result of a successful `trigger` call: the bus (returned `this`),
the normalized event record passed to the listeners, and the trace of
callback ids invoked, in invocation order. -/
structure TrigOut where
  bus : Bus
  event : EventRec
  invoked : List Nat
deriving DecidableEq, Repr

/-- The dispatch loop of `trigger` (eventable.js lines 211-219) over the
bucket's callback ids: each listener is invoked in sequence; after a
call returns exactly boolean `false` the loop returns immediately.
`env f` is the value callback `f` returns for this dispatch.  Listeners
are modelled as pure here: they do not mutate the registry mid-dispatch. -/
def runChain (env : Nat → JSRet) : List Nat → List Nat
  | [] => []
  | f :: rest =>
      f :: (if env f = .jbool false then [] else runChain env rest)

/-- Normalization `if (typeof event == 'string') event = {'type': event}`
(eventable.js lines 189-191). -/
def normalizeArg : EventArg → EventRec
  | .str s => ⟨some s, none, none⟩
  | .record e => e

/-- `if (!event.target) { event.target = this; }` (eventable.js lines
193-195): an absent target is replaced by the bus itself. -/
def withTarget (e : EventRec) : EventRec :=
  match e.target with
  | none => { e with target := some .busSelf }
  | some _ => e

/-- The message of the error thrown on an unresolvable type
(eventable.js line 200). -/
def invalidActionMsg : String := "[Eventable - trigger] Invalid action type."

/-- `trigger(event, params)` (eventable.js lines 187-222).  Normalizes a
bare string, defaults the target to the bus, attaches `params`, throws
on a falsy `type` (absent or empty string), optionally fires the jQuery
native event (external, registry untouched), then runs the internal
dispatch loop when the bucket is non-empty. -/
def trigger (b : Bus) (env : Nat → JSRet) (ev : EventArg) (params : Option JSRet) :
    Except String TrigOut :=
  let e2 := { withTarget (normalizeArg ev) with params := params }
  match e2.type with
  | none => .error invalidActionMsg
  | some ty =>
    if ty = "" then .error invalidActionMsg
    else if hasListeners b ty then
      .ok ⟨b, e2, runChain env (bucketFuncs b ty)⟩
    else .ok ⟨b, e2, []⟩

end EV

namespace EV

theorem findBucket_setBucket_self (m : List (String × List Listener))
    (t : String) (ls : List Listener) :
    findBucket (setBucket m t ls) t = some ls := by
  induction m with
  | nil => simp [setBucket, findBucket]
  | cons kv rest ih =>
    obtain ⟨k, v⟩ := kv
    by_cases h : k = t
    · simp [setBucket, findBucket, h]
    · simp [setBucket, findBucket, h, ih]

theorem findBucket_setBucket_ne (m : List (String × List Listener))
    (t u : String) (ls : List Listener) (h : u ≠ t) :
    findBucket (setBucket m t ls) u = findBucket m u := by
  induction m with
  | nil => simp [setBucket, findBucket, Ne.symm h]
  | cons kv rest ih =>
    obtain ⟨k, v⟩ := kv
    by_cases hk : k = t
    · subst hk
      simp [setBucket, findBucket, Ne.symm h]
    · simp only [setBucket, if_neg hk, findBucket]
      by_cases hu : k = u
      · simp [hu]
      · simp [hu, ih]

theorem addListener_event_style (b : Bus) (t : String) (f : Nat) :
    (addListener b t f).event_style = b.event_style := by
  unfold addListener
  by_cases hc : (if t ∈ jqEvents then "element" else b.event_style) = "element"
  · rw [if_pos hc]
  · rw [if_neg hc]

theorem bucketFuncs_addListener_self (b : Bus) (t : String) (f : Nat)
    (ht : t ∉ jqEvents) (hs : b.event_style ≠ "element") :
    bucketFuncs (addListener b t f) t = bucketFuncs b t ++ [f] := by
  unfold addListener bucketFuncs
  rw [if_neg ht, if_neg hs]
  simp only [findBucket_setBucket_self]
  cases findBucket b.listeners t <;> simp

theorem bucketFuncs_addListener_ne (b : Bus) (t u : String) (f : Nat)
    (h : u ≠ t) :
    bucketFuncs (addListener b t f) u = bucketFuncs b u := by
  unfold addListener
  by_cases hc : (if t ∈ jqEvents then "element" else b.event_style) = "element"
  · rw [if_pos hc]
  · rw [if_neg hc]
    simp [bucketFuncs, findBucket_setBucket_ne _ _ _ _ h]

end EV
namespace EV

/-- Registering a list of callbacks under one event name by repeated
`addListener` calls, in order. -/
def regAll (t : String) (cbs : List Nat) : Bus :=
  List.foldl (fun b f => addListener b t f) newBus cbs

theorem bucketFuncs_foldl_addListener (t : String) :
    ∀ (cbs : List Nat) (b : Bus), t ∉ jqEvents → b.event_style ≠ "element" →
      bucketFuncs (List.foldl (fun b f => addListener b t f) b cbs) t =
        bucketFuncs b t ++ cbs := by
  intro cbs
  induction cbs with
  | nil => intro b _ _; simp
  | cons f rest ih =>
    intro b ht hs
    have hstyle : (addListener b t f).event_style ≠ "element" := by
      rw [addListener_event_style]; exact hs
    simp only [List.foldl_cons]
    rw [ih (addListener b t f) ht hstyle,
        bucketFuncs_addListener_self b t f ht hs]
    simp

theorem runChain_take (env : Nat → JSRet) :
    ∀ (fs : List Nat) (k : Nat) (hk : k < fs.length),
      (∀ i (hik : i < k), env (fs.get ⟨i, hik.trans hk⟩) ≠ .jbool false) →
      env (fs.get ⟨k, hk⟩) = .jbool false →
      runChain env fs = fs.take (k + 1) := by
  intro fs
  induction fs with
  | nil => intro k hk _ _; exact absurd hk (Nat.not_lt_zero k)
  | cons f rest ih =>
    intro k hk hbefore hfalse
    cases k with
    | zero =>
      simp only [List.get] at hfalse
      simp [runChain, hfalse]
    | succ k2 =>
      have hf : env f ≠ .jbool false := by
        have := hbefore 0 (Nat.succ_pos k2)
        simpa using this
      have hk2 : k2 < rest.length := Nat.lt_of_succ_lt_succ hk
      have hbefore2 : ∀ i (hik : i < k2),
          env (rest.get ⟨i, hik.trans hk2⟩) ≠ .jbool false := by
        intro i hik
        have := hbefore (i + 1) (Nat.succ_lt_succ hik)
        simpa using this
      have hfalse2 : env (rest.get ⟨k2, hk2⟩) = .jbool false := by
        simpa using hfalse
      simp only [runChain, if_neg hf]
      rw [ih k2 hk2 hbefore2 hfalse2]
      simp [List.take]

theorem runChain_no_false (env : Nat → JSRet)
    (hnf : ∀ f, env f ≠ .jbool false) :
    ∀ fs : List Nat, runChain env fs = fs := by
  intro fs
  induction fs with
  | nil => rfl
  | cons f rest ih => simp [runChain, hnf f, ih]

theorem hasListeners_false_bucketFuncs (b : Bus) (t : String)
    (h : hasListeners b t = false) : bucketFuncs b t = [] := by
  unfold hasListeners at h
  unfold bucketFuncs
  cases hfb : findBucket b.listeners t with
  | none => simp
  | some ls =>
    rw [hfb] at h
    simp at h
    simp [h]

end EV
namespace EV

/-- Claim C1: registering a callback and then calling
`removeListener(name, callback)` with that same callback does not remove
the record: the loop compares the stored wrapper object itself (not its
`func_ref` field) against the callback, so no match is ever found; the
call returns the sentinel `false` and the bucket still holds the record.
This evaluates the code at the claim's failing input. -/
theorem removeListener_never_removes_registered_callback :
    (removeListener (addListener newBus "evt" 7) "evt" (.jsFun 7)).2 =
      ROutcome.notFound ∧
    bucketFuncs (removeListener (addListener newBus "evt" 7) "evt" (.jsFun 7)).1
      "evt" = [7] ∧
    (removeListener (addListener newBus "evt" 7) "evt" (.jsFun 7)).1 =
      addListener newBus "evt" 7 := by
  decide

/-- Claim C6: `removeListener` on a name with no bucket at all does not
return the bus as a no-op: the `Array` guard is vacuous (precedence),
the `length` read of `undefined` throws a `TypeError`.  The
existing-bucket/no-match path does return the distinguishable `false`
sentinel with the bucket unchanged, as the claim states. -/
theorem removeListener_missing_bucket_throws :
    (removeListener newBus "evt" (.jsFun 3)).2 = ROutcome.typeError ∧
    (removeListener (addListener newBus "evt" 7) "evt" (.jsFun 9)).2 =
      ROutcome.notFound ∧
    (removeListener (addListener newBus "evt" 7) "evt" (.jsFun 9)).1 =
      addListener newBus "evt" 7 := by
  decide

/-- Claim C3: for a chain registered in order under a non-native name,
`trigger` invokes the listeners in registration order and stops right
after the first one whose return value is exactly boolean `false`:
when listener `k` (0-based) returns `false` and all earlier ones do not,
exactly the first `k + 1` listeners are invoked. -/
theorem trigger_short_circuits_on_false (t : String) (cbs : List Nat)
    (env : Nat → JSRet) (params : Option JSRet) (k : Nat)
    (ht : t ∉ jqEvents) (ht0 : t ≠ "") (hk : k < cbs.length)
    (hbefore : ∀ i (hik : i < k),
      env (cbs.get ⟨i, hik.trans hk⟩) ≠ .jbool false)
    (hfalse : env (cbs.get ⟨k, hk⟩) = .jbool false) :
    ∃ out, trigger (regAll t cbs) env (.str t) params = .ok out ∧
      out.invoked = cbs.take (k + 1) := by
  have hnb : (newBus : Bus).event_style ≠ "element" := by decide
  have hbf : bucketFuncs (regAll t cbs) t = cbs := by
    have h := bucketFuncs_foldl_addListener t cbs newBus ht hnb
    have hempty : bucketFuncs newBus t = [] := rfl
    rw [hempty] at h
    simpa [regAll] using h
  have hne : cbs ≠ [] := by
    intro hcon
    rw [hcon] at hk
    exact absurd hk (by simp)
  have hhl : hasListeners (regAll t cbs) t = true := by
    cases hcase : hasListeners (regAll t cbs) t with
    | true => rfl
    | false =>
      have := hasListeners_false_bucketFuncs _ _ hcase
      rw [hbf] at this
      exact absurd this hne
  refine ⟨⟨regAll t cbs, ⟨some t, some .busSelf, params⟩, runChain env cbs⟩,
    ?_, ?_⟩
  · simp [trigger, normalizeArg, withTarget, ht0, hhl, hbf]
  · exact runChain_take env cbs k hk hbefore hfalse

/-- The listener returns used by the short-circuit witness: the third
listener (id 12) returns exactly boolean `false`, the rest return
`undefined`. -/
def envShortCircuit : Nat → JSRet :=
  fun f => if f = 12 then .jbool false else .jundefined

/-- Witness for C3: five listeners, the third returns `false`; exactly
listeners 1-3 are invoked. -/
theorem trigger_short_circuits_on_false_witness :
    ∃ out, trigger (regAll "evt" [10, 11, 12, 13, 14]) envShortCircuit
        (.str "evt") none = .ok out ∧
      out.invoked = [10, 11, 12] := by
  obtain ⟨out, h1, h2⟩ :=
    trigger_short_circuits_on_false "evt" [10, 11, 12, 13, 14] envShortCircuit
      none 2 (by decide) (by decide) (by decide)
      (by decide) (by decide)
  exact ⟨out, h1, by simpa using h2⟩

end EV
namespace EV

/-- JavaScript truthiness of the `type` field after normalization: a
present, non-empty string. -/
def resolvable : Option String → Bool
  | some s => s != ""
  | none => false

/-- The `type` of the event record right after the bare-string
normalization step of `trigger`. -/
def normType : EventArg → Option String
  | .str s => some s
  | .record e => e.type

/-- The target the dispatched record must carry per the claim: the
original target when present, otherwise the bus itself. -/
def expectedTarget : EventArg → Option ETarget
  | .str _ => some .busSelf
  | .record e =>
    match e.target with
    | none => some .busSelf
    | some tg => some tg

/-- Claim C5: `trigger` throws the invalid-action error exactly when the
record, after normalizing a bare string into a record, has no resolvable
(truthy) `type`; and when no error is thrown the dispatched record's
target is the original one if present, else the bus itself. -/
theorem trigger_error_iff_unresolvable_type (b : Bus) (env : Nat → JSRet)
    (ev : EventArg) (params : Option JSRet) :
    (resolvable (normType ev) = false →
      trigger b env ev params = .error invalidActionMsg) ∧
    (resolvable (normType ev) = true →
      ∃ out, trigger b env ev params = .ok out ∧
        out.event.target = expectedTarget ev ∧
        out.event.type = normType ev) := by
  cases ev with
  | str s =>
    constructor
    · intro h
      have hs : s = "" := by simpa [resolvable, normType] using h
      subst hs
      simp [trigger, normalizeArg, withTarget]
    · intro h
      have hs : s ≠ "" := by simpa [resolvable, normType] using h
      cases hl : hasListeners b s with
      | false =>
        exact ⟨⟨b, ⟨some s, some .busSelf, params⟩, []⟩,
          by simp [trigger, normalizeArg, withTarget, hs, hl], rfl, rfl⟩
      | true =>
        exact ⟨⟨b, ⟨some s, some .busSelf, params⟩,
            runChain env (bucketFuncs b s)⟩,
          by simp [trigger, normalizeArg, withTarget, hs, hl], rfl, rfl⟩
  | record e =>
    obtain ⟨ty, tg, pr⟩ := e
    cases ty with
    | none =>
      constructor
      · intro _
        cases tg <;> simp [trigger, normalizeArg, withTarget]
      · intro h
        simp [resolvable, normType] at h
    | some ty =>
      by_cases hty : ty = ""
      · subst hty
        constructor
        · intro _
          cases tg <;> simp [trigger, normalizeArg, withTarget]
        · intro h
          simp [resolvable, normType] at h
      · constructor
        · intro h
          have : ty ≠ "" := hty
          simp [resolvable, normType, this] at h
        · intro _
          cases tg with
          | none =>
            cases hl : hasListeners b ty with
            | false =>
              exact ⟨⟨b, ⟨some ty, some .busSelf, params⟩, []⟩,
                by simp [trigger, normalizeArg, withTarget, hty, hl],
                rfl, rfl⟩
            | true =>
              exact ⟨⟨b, ⟨some ty, some .busSelf, params⟩,
                  runChain env (bucketFuncs b ty)⟩,
                by simp [trigger, normalizeArg, withTarget, hty, hl],
                rfl, rfl⟩
          | some tgt =>
            cases hl : hasListeners b ty with
            | false =>
              exact ⟨⟨b, ⟨some ty, some tgt, params⟩, []⟩,
                by simp [trigger, normalizeArg, withTarget, hty, hl],
                rfl, rfl⟩
            | true =>
              exact ⟨⟨b, ⟨some ty, some tgt, params⟩,
                  runChain env (bucketFuncs b ty)⟩,
                by simp [trigger, normalizeArg, withTarget, hty, hl],
                rfl, rfl⟩

/-- Witness for C5: a record with no `type` makes `trigger` throw, and a
bare-string trigger on a fresh bus succeeds with the bus as target. -/
theorem trigger_error_iff_unresolvable_type_witness :
    trigger newBus envShortCircuit (.record ⟨none, none, none⟩) none =
      .error invalidActionMsg ∧
    ∃ out, trigger newBus envShortCircuit (.str "evt") none = .ok out ∧
      out.event.target = some ETarget.busSelf ∧
      out.event.type = some "evt" := by
  constructor
  · exact (trigger_error_iff_unresolvable_type newBus envShortCircuit
      (.record ⟨none, none, none⟩) none).1 (by decide)
  · exact (trigger_error_iff_unresolvable_type newBus envShortCircuit
      (.str "evt") none).2 (by decide)

end EV
namespace EV

/-- One call in a registration/removal history: `addListener(t, f)` or
`removeListener(t, r)`. -/
inductive EvOp
  | add (t : String) (f : Nat)
  | remove (t : String) (r : JSRef)
deriving DecidableEq, Repr

/-- The event name an operation addresses. -/
def opEventName : EvOp → String
  | .add t _ => t
  | .remove t _ => t

/-- The registry effect of one call.  A `removeListener` call that
throws (missing bucket) mutates nothing before the throw, so its state
effect is the identity. -/
def applyOp (b : Bus) : EvOp → Bus
  | .add t f => addListener b t f
  | .remove t r => (removeListener b t r).1

/-- The registry after a finite sequence of calls, first call first. -/
def applyOps (b : Bus) (ops : List EvOp) : Bus := List.foldl applyOp b ops

/-- The callbacks registered under `t` by a call sequence, in
registration order. -/
def registeredUnder : List EvOp → String → List Nat
  | [], _ => []
  | .add u f :: rest, t =>
      if u = t then f :: registeredUnder rest t else registeredUnder rest t
  | .remove _ _ :: rest, t => registeredUnder rest t

theorem spliceFirst_sublist :
    ∀ (ls : List Listener) (r : JSRef) (ls2 : List Listener),
      spliceFirst ls r = some ls2 → List.Sublist ls2 ls := by
  intro ls
  induction ls with
  | nil => intro r ls2 h; simp [spliceFirst] at h
  | cons l rest ih =>
    intro r ls2 h
    by_cases hl : refEqListener l r
    · rw [spliceFirst, if_pos hl] at h
      cases h
      exact List.sublist_cons_self l rest
    · rw [spliceFirst, if_neg hl] at h
      cases htail : spliceFirst rest r with
      | none => rw [htail] at h; simp at h
      | some tail =>
        rw [htail] at h
        simp at h
        cases h
        exact List.Sublist.cons₂ l (ih r tail htail)

theorem bucketFuncs_removeListener (b : Bus) (u t : String) (r : JSRef) :
    List.Sublist (bucketFuncs (removeListener b u r).1 t) (bucketFuncs b t) := by
  unfold removeListener
  by_cases hs : b.event_style = "element"
  · rw [if_pos hs]
  · rw [if_neg hs]
    cases hfb : findBucket b.listeners u with
    | none =>
      dsimp only
      exact List.Sublist.refl _
    | some ls =>
      dsimp only
      cases hsp : spliceFirst ls r with
      | none =>
        dsimp only
        exact List.Sublist.refl _
      | some ls2 =>
        dsimp only
        by_cases hut : t = u
        · subst hut
          simp only [bucketFuncs, findBucket_setBucket_self, hfb,
            Option.getD_some]
          exact List.Sublist.map Listener.func_ref
            (spliceFirst_sublist ls r ls2 hsp)
        · simp only [bucketFuncs, findBucket_setBucket_ne _ _ _ _ hut]
          exact List.Sublist.refl _

theorem bucketFuncs_applyOps_sublist (t : String) :
    ∀ (ops : List EvOp) (b : Bus),
      List.Sublist (bucketFuncs (applyOps b ops) t)
        (bucketFuncs b t ++ registeredUnder ops t) := by
  intro ops
  induction ops with
  | nil => intro b; simp [applyOps, registeredUnder]
  | cons op rest ih =>
    intro b
    have step : List.Sublist (bucketFuncs (applyOp b op) t ++ registeredUnder rest t)
        (bucketFuncs b t ++ registeredUnder (op :: rest) t) := by
      cases op with
      | add u f =>
        by_cases hut : u = t
        · subst hut
          simp only [registeredUnder, if_pos rfl]
          by_cases happ : (if u ∈ jqEvents then "element" else b.event_style) =
              "element"
          · have hnoop : applyOp b (.add u f) = b := by
              simp [applyOp, addListener, happ]
            rw [hnoop]
            exact List.Sublist.append (List.Sublist.refl _)
              (List.sublist_cons_self f _)
          · have ht2 : u ∉ jqEvents := by
              intro hmem
              exact happ (by simp [hmem])
            have hs2 : b.event_style ≠ "element" := by
              intro hst
              exact happ (by simp [ht2, hst])
            have hadd : bucketFuncs (applyOp b (.add u f)) u =
                bucketFuncs b u ++ [f] :=
              bucketFuncs_addListener_self b u f ht2 hs2
            rw [hadd]
            simp
        · simp only [registeredUnder, if_neg hut]
          rw [show applyOp b (.add u f) = addListener b u f from rfl,
            bucketFuncs_addListener_ne b u t f (fun hh => hut hh.symm)]
      | remove u r =>
        simp only [registeredUnder]
        exact List.Sublist.append (bucketFuncs_removeListener b u t r)
          (List.Sublist.refl _)
    have hrec := ih (applyOp b op)
    have hfold : bucketFuncs (applyOps b (op :: rest)) t =
        bucketFuncs (applyOps (applyOp b op) rest) t := by
      simp [applyOps]
    rw [hfold]
    exact List.Sublist.trans hrec step

end EV
namespace EV

/-- Claim C7: after any finite sequence of `addListener`/`removeListener`
calls on non-native event names, a dispatch with no short-circuit
invokes exactly the surviving records of the bucket, in bucket order,
and that order is an order-preserving subsequence of the registration
order (insertion order = invocation order, restricted to survivors). -/
theorem trigger_invokes_surviving_registration_order (ops : List EvOp)
    (t : String) (env : Nat → JSRet) (params : Option JSRet)
    (hops : ∀ op ∈ ops, opEventName op ∉ jqEvents)
    (ht : t ∉ jqEvents) (ht0 : t ≠ "")
    (hnf : ∀ f, env f ≠ .jbool false) :
    ∃ out, trigger (applyOps newBus ops) env (.str t) params = .ok out ∧
      out.invoked = bucketFuncs (applyOps newBus ops) t ∧
      List.Sublist (bucketFuncs (applyOps newBus ops) t)
        (registeredUnder ops t) := by
  have hsub : List.Sublist (bucketFuncs (applyOps newBus ops) t)
      (registeredUnder ops t) := by
    have h := bucketFuncs_applyOps_sublist t ops newBus
    have hempty : bucketFuncs newBus t = [] := rfl
    rw [hempty] at h
    simpa using h
  cases hl : hasListeners (applyOps newBus ops) t with
  | false =>
    have hbf : bucketFuncs (applyOps newBus ops) t = [] :=
      hasListeners_false_bucketFuncs _ _ hl
    refine ⟨⟨applyOps newBus ops, ⟨some t, some .busSelf, params⟩, []⟩,
      ?_, ?_, hsub⟩
    · simp [trigger, normalizeArg, withTarget, ht0, hl]
    · simp [hbf]
  | true =>
    refine ⟨⟨applyOps newBus ops, ⟨some t, some .busSelf, params⟩,
      runChain env (bucketFuncs (applyOps newBus ops) t)⟩, ?_, ?_, hsub⟩
    · simp [trigger, normalizeArg, withTarget, ht0, hl]
    · simp [runChain_no_false env hnf]

/-- Witness for C7: register callbacks 1, 2, then attempt to remove 1,
then register 3; dispatch invokes the bucket in order and the bucket is
a subsequence of the registration order [1, 2, 3]. -/
theorem trigger_invokes_surviving_registration_order_witness :
    ∃ out, trigger
        (applyOps newBus
          [.add "evt" 1, .add "evt" 2, .remove "evt" (.jsFun 1), .add "evt" 3])
        (fun _ => JSRet.jundefined) (.str "evt") none = .ok out ∧
      out.invoked = bucketFuncs
        (applyOps newBus
          [.add "evt" 1, .add "evt" 2, .remove "evt" (.jsFun 1), .add "evt" 3])
        "evt" ∧
      List.Sublist
        (bucketFuncs
          (applyOps newBus
            [.add "evt" 1, .add "evt" 2, .remove "evt" (.jsFun 1), .add "evt" 3])
          "evt")
        (registeredUnder
          [.add "evt" 1, .add "evt" 2, .remove "evt" (.jsFun 1), .add "evt" 3]
          "evt") := by
  exact trigger_invokes_surviving_registration_order
    [.add "evt" 1, .add "evt" 2, .remove "evt" (.jsFun 1), .add "evt" 3]
    "evt" (fun _ => JSRet.jundefined) none
    (by decide) (by decide) (by decide)
    (fun f h => JSRet.noConfusion h)

end EV
namespace MJ

/-- Docking state of the modal root: the `modalDocked dockLeft/dockRight`
CSS classes (modal.js `dock`). -/
inductive DockSide
  | undocked
  | left
  | right
deriving DecidableEq, Repr

/-- The observable state of one modal controller together with the
process-global pieces it touches: the live-dialog counter `modal.count`,
the shared minimized tray, and the trace of events emitted through the
owned bus (`this.trigger(...)`), in emission order.

Field correspondence with modal.js: `rendered` = the root produced by
`renderModal` is present in the document; `visible` = the root is shown;
`is_minimized`, `cancel_close`, `snap_overlay` are the instance fields
of the same names; `docked` = the docking classes on the root;
`overlay` = the overlay is enabled (`this.overlay !== false`);
`overlay_shown` = the overlay element is currently visible;
`tray_chips` = number of chips in the shared `.modalMinimizedContainer`;
`count` = `modal.count`. -/
structure MState where
  rendered : Bool
  visible : Bool
  is_minimized : Bool
  docked : DockSide
  cancel_close : Bool
  overlay : Bool
  overlay_shown : Bool
  snap_overlay : Bool
  tray_chips : Nat
  count : Int
  events : List String
deriving DecidableEq, Repr

/-- `this.trigger(name)` seen from the controller: appends the event to
the emission trace. -/
def emit (s : MState) (e : String) : MState :=
  { s with events := s.events ++ [e] }

/-- `hide()` (modal.js lines 852-859): hide the root, then emit
`modal.hide`. -/
def hide (s : MState) : MState :=
  emit { s with visible := false } "modal.hide"

/-- `minimize()` (modal.js lines 689-727): set `is_minimized`, hide the
dialog, fade the overlay out when enabled, create the shared tray when
absent, append a restore chip, then `_minimizeCallback` which emits
`modal.minimize`.  (The chip's own click handler and the optional
`minimize_callback` function are external behaviour not needed here.) -/
def minimize (s : MState) : MState :=
  let s1 := { s with is_minimized := true }
  let s2 := hide s1
  let s3 := if s2.overlay then { s2 with overlay_shown := false } else s2
  let s4 := { s3 with tray_chips := s3.tray_chips + 1 }
  emit s4 "modal.minimize"

/-- The `!position` branch of `dock` (modal.js lines 758-774): remove
the docking classes, restore the body styling (layout only), and
re-show the overlay if enabled and currently hidden. -/
def dockNull (s : MState) : MState :=
  let s1 := { s with docked := DockSide.undocked }
  if s1.overlay ∧ ¬ s1.overlay_shown then { s1 with overlay_shown := true }
  else s1

/-- `dock(position)` (modal.js lines 755-801).  A falsy position (null
or the empty string) undocks.  A truthy position hides the overlay
unless `snap_overlay` is set (the jQuery object `overlay.not(':hidden')`
is always truthy, so only `!this.snap_overlay` decides), computes the
tray-height bottom offset (layout only), applies the docking class for
`'left'`/`'right'` (any other truthy string changes no class), and ends
in `resize()` (layout only).  Note: `dock` reads and writes no
minimization state. -/
def dock (position : Option String) (s : MState) : MState :=
  match position with
  | none => dockNull s
  | some p =>
    if p = "" then dockNull s
    else
      let s1 := if ¬ s.snap_overlay then { s with overlay_shown := false }
                else s
      if p = "left" then { s1 with docked := DockSide.left }
      else if p = "right" then { s1 with docked := DockSide.right }
      else s1

/-- `kill()` (modal.js lines 912-947), the close operation.  With no
live root it is a no-op.  Otherwise it emits `modal.close` (running the
registered listeners) and calls the optional `close_func`; `hook`
models the combined effect of those synchronous callbacks on the
controller state.  If `cancel_close` is set when control returns, emit
`modal.cancel_close` and abort.  Otherwise decrement `modal.count` and
remove the root and the overlay from the document (the fade-out
completion effect).  `killAfterGuard` is the part after the live-root
guard, applied to the state the callbacks left behind. -/
def killAfterGuard (s1 : MState) : MState :=
  if s1.cancel_close = true then emit s1 "modal.cancel_close"
  else { s1 with count := s1.count - 1, rendered := false,
                 overlay_shown := false }

def kill (hook : MState → MState) (s : MState) : MState :=
  if s.rendered = false then s
  else killAfterGuard (hook (emit s "modal.close"))

/-- A freshly rendered, visible controller with an enabled overlay:
the state right after `renderModal` on a default-configured modal that
is the only live one (`modal.count = 1`), with the emission trace
started empty for observation. -/
def initState : MState :=
  { rendered := true, visible := true, is_minimized := false,
    docked := DockSide.undocked, cancel_close := false, overlay := true,
    overlay_shown := true, snap_overlay := false, tray_chips := 0,
    count := 1, events := [] }

end MJ
namespace MJ

/-- Claim C2: during `kill()` on a rendered controller whose
`cancel_close` starts `false`, if the `modal.close` listeners or the
optional `close_func` (the `hook`) leave `cancel_close` set, the close
is vetoed: `modal.cancel_close` is emitted after the close-intent event,
the live counter is unchanged and the root stays; otherwise the counter
is decremented exactly once and the root is removed.  The hook is
assumed to touch only controller fields other than the counter, the
root and the emission trace (the claim's listeners set `cancelClose`). -/
theorem kill_veto_or_commit (hook : MState → MState) (s : MState)
    (hr : s.rendered = true)
    (hcc : s.cancel_close = false)
    (hhr : ∀ u, (hook u).rendered = u.rendered)
    (hhc : ∀ u, (hook u).count = u.count)
    (hhe : ∀ u, (hook u).events = u.events) :
    ((hook (emit s "modal.close")).cancel_close = true →
      (kill hook s).events =
        s.events ++ ["modal.close", "modal.cancel_close"] ∧
      (kill hook s).count = s.count ∧
      (kill hook s).rendered = true) ∧
    ((hook (emit s "modal.close")).cancel_close = false →
      (kill hook s).count = s.count - 1 ∧
      (kill hook s).rendered = false) := by
  have _ := hcc
  have hred : kill hook s = killAfterGuard (hook (emit s "modal.close")) := by
    unfold kill
    rw [hr]
    simp
  refine ⟨fun hveto => ?_, fun hcommit => ?_⟩
  · have hbody : killAfterGuard (hook (emit s "modal.close")) =
        emit (hook (emit s "modal.close")) "modal.cancel_close" := by
      unfold killAfterGuard
      rw [hveto]
      simp
    rw [hred, hbody]
    refine ⟨?_, ?_, ?_⟩ <;> simp [emit, hhe, hhc, hhr, hr]
  · have hbody : killAfterGuard (hook (emit s "modal.close")) =
        { hook (emit s "modal.close") with
          count := (hook (emit s "modal.close")).count - 1,
          rendered := false, overlay_shown := false } := by
      unfold killAfterGuard
      rw [hcommit]
      simp [hcommit]
    rw [hred, hbody]
    refine ⟨?_, ?_⟩ <;> simp [emit, hhc]

/-- The hook used by the C2 witness: a `modal.close` listener that sets
`cancel_close` and changes nothing else. -/
def hookSetCancel : MState → MState :=
  fun u => { u with cancel_close := true }

/-- Witness for C2: instantiated at the freshly rendered state with a
listener that vetoes, and at the same state read with the hook's other
branch trivially true. -/
theorem kill_veto_or_commit_witness :
    ((hookSetCancel (emit initState "modal.close")).cancel_close = true →
      (kill hookSetCancel initState).events =
        initState.events ++ ["modal.close", "modal.cancel_close"] ∧
      (kill hookSetCancel initState).count = initState.count ∧
      (kill hookSetCancel initState).rendered = true) ∧
    ((hookSetCancel (emit initState "modal.close")).cancel_close = false →
      (kill hookSetCancel initState).count = initState.count - 1 ∧
      (kill hookSetCancel initState).rendered = false) := by
  exact kill_veto_or_commit hookSetCancel initState rfl rfl
    (fun u => rfl) (fun u => rfl) (fun u => rfl)

/-- Claim C4 counterexample: `minimize()` followed by `dock('left')`
reaches a state where the minimized flag and a docked side are
simultaneously true — `dock` does not clear the flag, refuting both the
mutual-exclusion invariant and the implicit un-minimize. -/
theorem dock_left_keeps_minimized_flag :
    (dock (some "left") (minimize initState)).is_minimized = true ∧
    (dock (some "left") (minimize initState)).docked = DockSide.left := by
  decide

/-- Claim C4 (amended): `dock` never modifies the minimized flag, so
minimized-and-docked is reachable (for instance by `minimize()` then
`dock('left')`). -/
theorem dock_preserves_minimized :
    (∀ (p : Option String) (s : MState),
      (dock p s).is_minimized = s.is_minimized) ∧
    (dock (some "left") (minimize initState)).is_minimized = true ∧
    (dock (some "left") (minimize initState)).docked = DockSide.left := by
  refine ⟨?_, by decide, by decide⟩
  intro p s
  cases p with
  | none =>
    simp only [dock, dockNull]
    split_ifs <;> rfl
  | some p2 =>
    simp only [dock, dockNull]
    split_ifs <;> rfl

/-- A rendered controller whose previous close was vetoed:
`cancel_close` is still `true` and nothing reset it. -/
def vetoState : MState := { initState with cancel_close := true }

/-- Claim C9 counterexample: a subsequent `kill()` on a vetoed
controller does not emit only the cancel event — it emits the
close-intent event `modal.close` first and then `modal.cancel_close`. -/
theorem kill_after_veto_emits_close_first :
    (kill (fun u => u) vetoState).events =
      ["modal.close", "modal.cancel_close"] ∧
    (kill (fun u => u) vetoState).events ≠ ["modal.cancel_close"] := by
  decide

/-- Claim C9 (amended): `kill()` never resets `cancel_close`, so while
the flag stays set and no listener clears it, every subsequent `kill()`
is vetoed as well: it emits the close-intent event followed by the
cancel event, never decrements the counter and never removes the root. -/
theorem kill_repeat_veto (hook : MState → MState) (s : MState)
    (hr : s.rendered = true)
    (hcc : s.cancel_close = true)
    (h1 : ∀ u, (hook u).cancel_close = u.cancel_close)
    (h2 : ∀ u, (hook u).count = u.count)
    (h3 : ∀ u, (hook u).rendered = u.rendered)
    (h4 : ∀ u, (hook u).events = u.events) :
    (kill hook s).cancel_close = true ∧
    (kill hook s).count = s.count ∧
    (kill hook s).rendered = true ∧
    (kill hook s).events =
      s.events ++ ["modal.close", "modal.cancel_close"] := by
  have hveto : (hook (emit s "modal.close")).cancel_close = true := by
    rw [h1]
    exact hcc
  have hred : kill hook s = killAfterGuard (hook (emit s "modal.close")) := by
    unfold kill
    rw [hr]
    simp
  have hbody : killAfterGuard (hook (emit s "modal.close")) =
      emit (hook (emit s "modal.close")) "modal.cancel_close" := by
    unfold killAfterGuard
    rw [hveto]
    simp
  rw [hred, hbody]
  refine ⟨?_, ?_, ?_, ?_⟩ <;> simp [emit, hveto, h1, h2, h3, h4, hr, hcc]

/-- Witness for the amended C9: a second `kill()` with listeners that do
not touch the flag, on the vetoed state. -/
theorem kill_repeat_veto_witness :
    (kill (fun u => u) vetoState).cancel_close = true ∧
    (kill (fun u => u) vetoState).count = vetoState.count ∧
    (kill (fun u => u) vetoState).rendered = true ∧
    (kill (fun u => u) vetoState).events =
      vetoState.events ++ ["modal.close", "modal.cancel_close"] := by
  exact kill_repeat_veto (fun u => u) vetoState rfl rfl
    (fun u => rfl) (fun u => rfl) (fun u => rfl) (fun u => rfl)

end MJ
namespace MC

/-- A JavaScript value stored in an instance property: `null`,
`undefined`, a boolean, a string, a number (rationals cover the numeric
literals the constructor uses), or an opaque object/function/array/jQuery
reference identified by id. -/
inductive JSVal
  | vnull
  | vundefined
  | vbool (b : Bool)
  | vstr (s : String)
  | vrat (q : Rat)
  | vobj (id : Nat)
deriving DecidableEq

/-- The own (directly declared) properties of a modal instance, in
declaration order: name to value. -/
abbrev Props := List (String × JSVal)

/-- Own-property read `this[idx]`; `none` models an absent property
(`hasOwnProperty` false). -/
def getProp : Props → String → Option JSVal
  | [], _ => none
  | (k, w) :: rest, n => if k = n then some w else getProp rest n

/-- Own-property write `this[idx] = v`: replaces the value in place when
the property exists, else appends a new own property.  (`settings` only
writes guarded by `hasOwnProperty`, so the append branch is never taken
there.) -/
def setProp : Props → String → JSVal → Props
  | [], n, v => [(n, v)]
  | (k, w) :: rest, n, v =>
      if k = n then (k, v) :: rest else (k, w) :: setProp rest n v

/-- The `for (idx in args)` loop of `settings` (modal.js lines 125-137):
apply an entry when `this.hasOwnProperty(idx)`, otherwise log
`'Invalid property set: ' + idx`; `lg` accumulates the log calls. -/
def settingsGo (inst : Props) (lg : List String) :
    List (String × JSVal) → Props × List String
  | [] => (inst, lg)
  | (n, v) :: rest =>
    if (getProp inst n).isSome then settingsGo (setProp inst n v) lg rest
    else settingsGo inst (lg ++ ["Invalid property set: " ++ n]) rest

/-- `settings(args)` (modal.js lines 125-137): merge `args` into the
instance, returning the instance (`this`) and the log of rejected
names.  The merge itself never fails. -/
def settings (inst : Props) (args : List (String × JSVal)) :
    Props × List String :=
  settingsGo inst [] args

/-- The value of the last entry named `n` in `args`, if any: with
in-place updates, the last write wins. -/
def lastVal : List (String × JSVal) → String → Option JSVal
  | [], _ => none
  | (m, v) :: rest, n =>
    match lastVal rest n with
    | some w => some w
    | none => if m = n then some v else none

theorem getProp_setProp (inst : Props) (m : String) (v : JSVal)
    (n : String) :
    getProp (setProp inst m v) n = if n = m then some v else getProp inst n := by
  induction inst with
  | nil =>
    by_cases h : n = m
    · simp [setProp, getProp, h]
    · simp [setProp, getProp, h, Ne.symm h]
  | cons kw rest ih =>
    obtain ⟨k, w⟩ := kw
    by_cases hk : k = m
    · subst hk
      by_cases h : n = k
      · simp [setProp, getProp, h]
      · simp [setProp, getProp, h, Ne.symm h]
    · by_cases h : k = n
      · subst h
        simp [setProp, getProp, hk, Ne.symm hk]
      · simp [setProp, getProp, hk, h, ih]

theorem settingsGo_fst (n : String) :
    ∀ (args : List (String × JSVal)) (inst : Props) (lg : List String),
      getProp (settingsGo inst lg args).1 n =
        (if (getProp inst n).isSome then
          (match lastVal args n with
           | some w => some w
           | none => getProp inst n)
         else getProp inst n) := by
  intro args
  induction args with
  | nil =>
    intro inst lg
    simp [settingsGo, lastVal]
  | cons mv rest ih =>
    intro inst lg
    obtain ⟨m, v⟩ := mv
    by_cases hown : (getProp inst m).isSome
    · rw [show settingsGo inst lg ((m, v) :: rest) =
          settingsGo (setProp inst m v) lg rest by
            simp [settingsGo, hown]]
      rw [ih (setProp inst m v) lg]
      by_cases hnm : n = m
      · subst hnm
        simp only [getProp_setProp, if_pos rfl, Option.isSome_some, hown,
          if_true, lastVal]
        cases hlv : lastVal rest n <;> simp [hlv]
      · simp only [getProp_setProp, if_neg hnm, lastVal]
        cases hlv : lastVal rest n with
        | none => simp [hlv, Ne.symm hnm]
        | some w => simp [hlv]
    · rw [show settingsGo inst lg ((m, v) :: rest) =
          settingsGo inst (lg ++ ["Invalid property set: " ++ m]) rest by
            simp [settingsGo, hown]]
      rw [ih inst (lg ++ ["Invalid property set: " ++ m])]
      by_cases hnm : n = m
      · subst hnm
        have hno : (getProp inst n).isSome = false := by
          simpa using hown
        simp [hno]
      · simp only [lastVal]
        cases hlv : lastVal rest n with
        | none => simp [hlv, Ne.symm hnm]
        | some w => simp [hlv]

theorem settingsGo_log_mono (x : String) :
    ∀ (args : List (String × JSVal)) (inst : Props) (lg : List String),
      x ∈ lg → x ∈ (settingsGo inst lg args).2 := by
  intro args
  induction args with
  | nil => intro inst lg hx; simpa [settingsGo] using hx
  | cons mv rest ih =>
    intro inst lg hx
    obtain ⟨m, v⟩ := mv
    by_cases hown : (getProp inst m).isSome
    · rw [show settingsGo inst lg ((m, v) :: rest) =
          settingsGo (setProp inst m v) lg rest by
            simp [settingsGo, hown]]
      exact ih (setProp inst m v) lg hx
    · rw [show settingsGo inst lg ((m, v) :: rest) =
          settingsGo inst (lg ++ ["Invalid property set: " ++ m]) rest by
            simp [settingsGo, hown]]
      exact ih inst _ (by simp [hx])

theorem settingsGo_log_mem :
    ∀ (args : List (String × JSVal)) (inst : Props) (lg : List String)
      (p : String × JSVal), p ∈ args → (getProp inst p.1).isSome = false →
      ("Invalid property set: " ++ p.1) ∈ (settingsGo inst lg args).2 := by
  intro args
  induction args with
  | nil => intro inst lg p hp _; simp at hp
  | cons mv rest ih =>
    intro inst lg p hp hmiss
    obtain ⟨m, v⟩ := mv
    rcases List.mem_cons.mp hp with heq | hmem
    · have hp1 : p.1 = m := by rw [heq]
      rw [hp1] at hmiss ⊢
      rw [show settingsGo inst lg ((m, v) :: rest) =
          settingsGo inst (lg ++ ["Invalid property set: " ++ m]) rest by
            simp [settingsGo, hmiss]]
      exact settingsGo_log_mono _ rest inst _ (by simp)
    · by_cases hown : (getProp inst m).isSome
      · rw [show settingsGo inst lg ((m, v) :: rest) =
            settingsGo (setProp inst m v) lg rest by
              simp [settingsGo, hown]]
        have hmiss2 : (getProp (setProp inst m v) p.1).isSome = false := by
          rw [getProp_setProp]
          by_cases hpm : p.1 = m
          · rw [hpm] at hmiss
            rw [hmiss] at hown
            simp at hown
          · simpa [hpm] using hmiss
        exact ih (setProp inst m v) lg p hmem hmiss2
      · rw [show settingsGo inst lg ((m, v) :: rest) =
            settingsGo inst (lg ++ ["Invalid property set: " ++ m]) rest by
              simp [settingsGo, hown]]
        exact ih inst _ p hmem hmiss

end MC
namespace MC

/-- The own properties of a modal instance at the moment the
constructor reaches `this.settings(args)` (modal.js lines 66-106), in
declaration order: first the fields copied from `new Eventable()` —
which itself extends `new Logger()` — then the fields declared by the
`modal` constructor.  `count` is the value of `modal.count` after the
initial increment.  Opaque references (arrays, jQuery objects, the
`$('body')` container) are distinct `vobj` ids. -/
def newModalInstance (count : Nat) : Props :=
  [("event_selector", JSVal.vnull),
   ("event_style", JSVal.vstr "object"),
   ("event_type", JSVal.vstr ""),
   ("func_ref", JSVal.vnull),
   ("func_params", JSVal.vobj 0),
   ("_listeners", JSVal.vobj 1),
   ("_log_prefix", JSVal.vstr ""),
   ("debug", JSVal.vbool false),
   ("window", JSVal.vnull),
   ("input_has_focus", JSVal.vbool false),
   ("modal_id", JSVal.vstr ("oneModal" ++ toString count)),
   ("overlay_id", JSVal.vstr ("oneOverlay" ++ toString count)),
   ("content", JSVal.vstr ""),
   ("container", JSVal.vobj 2),
   ("footer", JSVal.vstr ""),
   ("modal_class", JSVal.vstr ""),
   ("title", JSVal.vstr ""),
   ("sub_title", JSVal.vstr ""),
   ("theme", JSVal.vstr "dark"),
   ("speed", JSVal.vstr "fast"),
   ("overlay", JSVal.vrat ((3 : Rat) / 4)),
   ("user_actions", JSVal.vbool false),
   ("draggable", JSVal.vbool false),
   ("overlay_exit", JSVal.vbool true),
   ("snap_overlay", JSVal.vbool false),
   ("snap", JSVal.vbool true),
   ("center", JSVal.vbool true),
   ("center_resize", JSVal.vbool true),
   ("minimizable", JSVal.vbool false),
   ("is_minimized", JSVal.vbool false),
   ("hug_content", JSVal.vbool false),
   ("no_close_button", JSVal.vbool false),
   ("display_on_load", JSVal.vbool true),
   ("content_selector", JSVal.vnull),
   ("minimize_callback", JSVal.vnull),
   ("render_modal_callback", JSVal.vnull),
   ("close_func", JSVal.vnull),
   ("cancel_close", JSVal.vbool false)]

/-- Claim C8: the merge applies exactly the entries whose name is an
already-declared own property of the instance — for any name, the
merged value is the last `args` entry under that name when the name is
declared, and the untouched original lookup (in particular, still
absent) when it is not — and every entry with an undeclared name is
logged.  The merge is a total function and returns the instance. -/
theorem settings_applies_exactly_declared (inst : Props)
    (args : List (String × JSVal)) (n : String) :
    (getProp (settings inst args).1 n =
      (if (getProp inst n).isSome then
        (match lastVal args n with
         | some w => some w
         | none => getProp inst n)
       else getProp inst n)) ∧
    (∀ p, p ∈ args → (getProp inst p.1).isSome = false →
      ("Invalid property set: " ++ p.1) ∈ (settings inst args).2) := by
  constructor
  · exact settingsGo_fst n args inst []
  · intro p hp hmiss
    exact settingsGo_log_mem args inst [] p hp hmiss

/-- Witness for C8: on a fresh instance, a declared name (`title`) is
applied and an undeclared one (`bogus`) is rejected and logged. -/
theorem settings_applies_exactly_declared_witness :
    getProp (settings (newModalInstance 1)
        [("title", JSVal.vstr "T"), ("bogus", JSVal.vstr "x")]).1 "title" =
      some (JSVal.vstr "T") ∧
    getProp (settings (newModalInstance 1)
        [("title", JSVal.vstr "T"), ("bogus", JSVal.vstr "x")]).1 "bogus" =
      none ∧
    ("Invalid property set: " ++ "bogus") ∈
      (settings (newModalInstance 1)
        [("title", JSVal.vstr "T"), ("bogus", JSVal.vstr "x")]).2 := by
  have h := settings_applies_exactly_declared (newModalInstance 1)
    [("title", JSVal.vstr "T"), ("bogus", JSVal.vstr "x")] "title"
  have h2 := settings_applies_exactly_declared (newModalInstance 1)
    [("title", JSVal.vstr "T"), ("bogus", JSVal.vstr "x")] "bogus"
  refine ⟨?_, ?_, ?_⟩
  · rw [h.1]
    decide
  · rw [h2.1]
    decide
  · exact h.2 ("bogus", JSVal.vstr "x") (by decide) (by decide)

/-- An options object addressing only runtime state and mixed-in
internals, none of it presentation config. -/
def argsRuntime : List (String × JSVal) :=
  [("cancel_close", JSVal.vbool true),
   ("is_minimized", JSVal.vbool true),
   ("modal_id", JSVal.vstr "hijacked"),
   ("overlay_id", JSVal.vstr "hijackedOverlay"),
   ("window", JSVal.vobj 99),
   ("debug", JSVal.vbool true),
   ("_listeners", JSVal.vobj 98)]

/-- Claim C10: the merge accepts any name matching any own property,
not only presentation config — entries for runtime state and mixed-in
internals (`cancel_close`, `is_minimized`, `modal_id`, `overlay_id`,
`window`, `debug`, `_listeners`) are all applied by `settings` (and so
by the constructor argument, since the constructor calls
`this.settings(args)` after declaring every field), with nothing
rejected or logged. -/
theorem settings_overwrites_runtime_state :
    (getProp (settings (newModalInstance 1) argsRuntime).1 "cancel_close" =
      some (JSVal.vbool true)) ∧
    (getProp (settings (newModalInstance 1) argsRuntime).1 "is_minimized" =
      some (JSVal.vbool true)) ∧
    (getProp (settings (newModalInstance 1) argsRuntime).1 "modal_id" =
      some (JSVal.vstr "hijacked")) ∧
    (getProp (settings (newModalInstance 1) argsRuntime).1 "overlay_id" =
      some (JSVal.vstr "hijackedOverlay")) ∧
    (getProp (settings (newModalInstance 1) argsRuntime).1 "window" =
      some (JSVal.vobj 99)) ∧
    (getProp (settings (newModalInstance 1) argsRuntime).1 "debug" =
      some (JSVal.vbool true)) ∧
    (getProp (settings (newModalInstance 1) argsRuntime).1 "_listeners" =
      some (JSVal.vobj 98)) ∧
    (settings (newModalInstance 1) argsRuntime).2 = [] := by
  decide

end MC
